import Mathlib

/-!
# Verification of the ARISE 2025 dashboard ETL pipelines

Shallow embedding of the data-wrangling core of the ARISE2025 dashboard
repository: the monthly ridership aggregation (`app.py`), the Google-Drive
bus loader (`app_bus.py`), the taxi monthly report normalization
(`app_taxi.py` / `app.py`), the CRZ cache artifact (`create_crz_summary.py` /
`app_crz_optimized.py`) and the Dropbox CRZ variant (`app_crz.py`).

Pure dataframe computations are translated to Lean functions over lists of
records; fallible steps (column access, timestamp parsing, numeric coercion)
return `Option` or `Except`.
-/

set_option autoImplicit false

namespace Dashboard

/-! ## Canonical records and the monthly aggregate (app.py, lines 128-135)

`bus_monthly = bus_df.groupby(["Route", "Year", "Month", "MonthNum"],
as_index=False)["Ridership"].sum()`.  The `"Month"` column (the month name)
is a function of `"MonthNum"`, so the grouping key is `(route, year, month)`.
-/

/-- A bus ridership row after column canonicalisation and timestamp
coercion: route identifier, calendar year and month extracted from the
parsed timestamp, and the ridership count. -/
structure CanonicalRecord where
  route : String
  year : Nat
  month : Nat
  count : ℚ
deriving DecidableEq

/-- The monthly aggregate viewed as a total mapping: the group-by-and-sum of
`app.py` sends a key `(route, year, month)` to the sum of the `count` field
over all records with that key (0 when the key is absent from the table). -/
def busMonthlyTotal (l : List CanonicalRecord) (k : String × Nat × Nat) : ℚ :=
  ((l.filter fun r => r.route = k.1 ∧ r.year = k.2.1 ∧ r.month = k.2.2).map
    CanonicalRecord.count).sum

/-- Merging two partial aggregates adds the totals pointwise. -/
def mergeTotals (f g : String × Nat × Nat → ℚ) : String × Nat × Nat → ℚ :=
  fun k => f k + g k

/-- C2: aggregating the concatenation of two chunks equals merging the
per-chunk aggregates, and the aggregate is invariant under reordering of
the input records, so the final mapping is independent of chunk boundaries
and file read order. -/
theorem bus_aggregate_merge_comm :
    (∀ A B : List CanonicalRecord,
      busMonthlyTotal (A ++ B) = mergeTotals (busMonthlyTotal A) (busMonthlyTotal B)) ∧
    (∀ A B : List CanonicalRecord, A.Perm B → busMonthlyTotal A = busMonthlyTotal B) := by
  constructor
  · intro A B
    funext k
    simp [busMonthlyTotal, mergeTotals, List.filter_append]
  · intro A B h
    funext k
    exact List.Perm.sum_eq (((h.filter _).map _))

/-- Witness for C2 at concrete chunks: two one-record chunks for route M15,
and the two-record input in both orders. -/
theorem bus_aggregate_merge_comm_witness :
    busMonthlyTotal ([⟨"M15", 2021, 1, 3⟩] ++ [⟨"M15", 2021, 1, 4⟩]) =
      mergeTotals (busMonthlyTotal [⟨"M15", 2021, 1, 3⟩])
        (busMonthlyTotal [⟨"M15", 2021, 1, 4⟩]) ∧
    busMonthlyTotal [⟨"M15", 2021, 1, 3⟩, ⟨"M5", 2022, 2, 7⟩] =
      busMonthlyTotal [⟨"M5", 2022, 2, 7⟩, ⟨"M15", 2021, 1, 3⟩] :=
  ⟨bus_aggregate_merge_comm.1 [⟨"M15", 2021, 1, 3⟩] [⟨"M15", 2021, 1, 4⟩],
   bus_aggregate_merge_comm.2 [⟨"M15", 2021, 1, 3⟩, ⟨"M5", 2022, 2, 7⟩]
     [⟨"M5", 2022, 2, 7⟩, ⟨"M15", 2021, 1, 3⟩] (List.Perm.swap _ _ _)⟩

/-! ## Year-over-year percent change (app_taxi.py lines 89-102; the same
`pct_change(periods=12)` computation appears in app.py lines 533-558 and
app_bus.py lines 233-287) -/

/-- One row of the taxi monthly report after normalization
(app_taxi.py lines 11-22): license class, calendar year and month parsed
from the `Month/Year` column, and the cleaned `Trips Per Day` value. -/
structure TaxiRow where
  licenseClass : String
  year : Nat
  monthNum : Nat
  tripsPerDay : ℚ
deriving DecidableEq

/-- Chronological index of a calendar month; advancing one calendar month
adds one to it. -/
def dateIdx (y m : Nat) : Nat := 12 * y + m

/-- The key order of `sort_values(["Year", "MonthNum"])`. -/
def rowLE (a b : TaxiRow) : Prop :=
  a.year < b.year ∨ (a.year = b.year ∧ a.monthNum ≤ b.monthNum)

instance : DecidableRel rowLE := fun a b =>
  inferInstanceAs (Decidable (a.year < b.year ∨ (a.year = b.year ∧ a.monthNum ≤ b.monthNum)))

/-- `taxi_df.sort_values(["Year", "MonthNum"])` (app_taxi.py line 22). -/
def sortByYearMonth (l : List TaxiRow) : List TaxiRow :=
  List.insertionSort rowLE l

/-- One entry of `Series.pct_change(...) * 100`:
`(cur - prev) / prev * 100`. -/
def pctChangeVal (prev cur : ℚ) : ℚ := (cur - prev) / prev * 100

/-- `Series.pct_change(periods=12) * 100`: entry `i` compares position `i`
of the series against position `i - 12`; the first 12 entries are missing
(`NaN` in the dataframe). -/
def pctChange12 (vals : List ℚ) : List (Option ℚ) :=
  (List.range vals.length).map fun i =>
    if i < 12 then none
    else some (pctChangeVal (vals.getD (i - 12) 0) (vals.getD i 0))

/-- The callback's filtered series: the module-level sort of app_taxi.py
line 22 followed by the license-class and date-range filter of lines 93-95
(calendar dates abstracted to the chronological month index). -/
def taxiFiltered (df : List TaxiRow) (lc : String) (s e : Nat) : List TaxiRow :=
  (sortByYearMonth df).filter fun r =>
    r.licenseClass = lc ∧ s ≤ dateIdx r.year r.monthNum ∧ dateIdx r.year r.monthNum ≤ e

/-- The `% Change YoY` metric column computed by `update_taxi_graph`
(app_taxi.py lines 100-101): positional `pct_change(periods=12) * 100`
over the filtered series. -/
def updateTaxiGraphPct (df : List TaxiRow) (lc : String) (s e : Nat) : List (Option ℚ) :=
  pctChange12 ((taxiFiltered df lc s e).map TaxiRow.tripsPerDay)

/-- The metric as the spec words it, for comparison with
`updateTaxiGraphPct`: the entry for a month is computed against the entry
for the same calendar month of the prior year, and is missing when that
month is absent from the series. -/
def specYoY (data : List TaxiRow) : List (Option ℚ) :=
  data.map fun r =>
    match data.find? (fun p => p.year + 1 == r.year && p.monthNum == r.monthNum) with
    | some p => some (pctChangeVal p.tripsPerDay r.tripsPerDay)
    | none => none

/-- A monthly series with January 2021 absent: December 2020 (200), then
February through December 2021 (100 each), then January 2022 (300). -/
def taxiGapSeries : List TaxiRow :=
  [⟨"Yellow", 2020, 12, 200⟩, ⟨"Yellow", 2021, 2, 100⟩, ⟨"Yellow", 2021, 3, 100⟩,
   ⟨"Yellow", 2021, 4, 100⟩, ⟨"Yellow", 2021, 5, 100⟩, ⟨"Yellow", 2021, 6, 100⟩,
   ⟨"Yellow", 2021, 7, 100⟩, ⟨"Yellow", 2021, 8, 100⟩, ⟨"Yellow", 2021, 9, 100⟩,
   ⟨"Yellow", 2021, 10, 100⟩, ⟨"Yellow", 2021, 11, 100⟩, ⟨"Yellow", 2021, 12, 100⟩,
   ⟨"Yellow", 2022, 1, 300⟩]

/-- C1 counterexample: on `taxiGapSeries`, January 2021 is absent, yet the
code's value for January 2022 is `some 50` (it is computed positionally
against December 2020, twelve rows earlier) while the claim says it must
be missing (`none`), as the spec-side series indeed is. -/
theorem taxi_yoy_positional_counterexample :
    (updateTaxiGraphPct taxiGapSeries "Yellow" 0 100000).getLast?
      = some (some (pctChangeVal 200 300)) ∧
    pctChangeVal 200 300 = 50 ∧
    (specYoY (taxiFiltered taxiGapSeries "Yellow" 0 100000)).getLast? = some none := by
  refine ⟨rfl, ?_, rfl⟩
  norm_num [pctChangeVal]

/-- The successor of a calendar month. -/
def nextMonth (y m : Nat) : Nat × Nat := if m = 12 then (y + 1, 1) else (y, m + 1)

/-- Two successive rows are consecutive calendar months. -/
def MonthStep (a b : TaxiRow) : Prop :=
  (b.year, b.monthNum) = nextMonth a.year a.monthNum

/-- Boolean test for `MonthStep`. -/
def monthStepB (a b : TaxiRow) : Bool :=
  (b.year, b.monthNum) == nextMonth a.year a.monthNum

/-- Boolean test that successive rows are consecutive calendar months. -/
def monthChainB : List TaxiRow → Bool
  | [] => true
  | [_] => true
  | a :: b :: t => monthStepB a b && monthChainB (b :: t)

/-- A series of consecutive calendar months with well-formed month numbers. -/
def MonthConsecutive (l : List TaxiRow) : Prop :=
  (l.all fun r => 1 ≤ r.monthNum && r.monthNum ≤ 12) = true ∧ monthChainB l = true

instance (l : List TaxiRow) : Decidable (MonthConsecutive l) :=
  inferInstanceAs (Decidable (_ = true ∧ _ = true))

theorem monthChainB_eq_true_iff (l : List TaxiRow) :
    monthChainB l = true ↔ l.Chain' MonthStep := by
  induction l with
  | nil => simp [monthChainB]
  | cons a t ih =>
    cases t with
    | nil => simp [monthChainB]
    | cons b t2 =>
      rw [List.chain'_cons]
      rw [show monthChainB (a :: b :: t2) = (monthStepB a b && monthChainB (b :: t2)) from rfl]
      rw [Bool.and_eq_true, ih]
      unfold monthStepB MonthStep
      rw [beq_iff_eq]

theorem dateIdx_nextMonth (y m : Nat) :
    dateIdx (nextMonth y m).1 (nextMonth y m).2 = dateIdx y m + 1 := by
  unfold nextMonth dateIdx
  split <;> omega

theorem chain_dateIdx {l : List TaxiRow} (h : l.Chain' MonthStep)
    (i : Nat) (hi : i < l.length) (h0 : 0 < l.length) :
    dateIdx (l.get ⟨i, hi⟩).year (l.get ⟨i, hi⟩).monthNum
      = dateIdx (l.get ⟨0, h0⟩).year (l.get ⟨0, h0⟩).monthNum + i := by
  induction i with
  | zero => rfl
  | succ k ih =>
    have hk : k < l.length := by omega
    have hstep : MonthStep (l.get ⟨k, hk⟩) (l.get ⟨k + 1, hi⟩) :=
      List.chain'_iff_get.mp h k (by omega)
    have hy := congrArg Prod.fst hstep
    have hm := congrArg Prod.snd hstep
    simp only at hy hm
    have hnext := dateIdx_nextMonth (l.get ⟨k, hk⟩).year (l.get ⟨k, hk⟩).monthNum
    rw [← hy, ← hm] at hnext
    rw [hnext, ih hk]
    omega

theorem find?_eq_get_of {α : Type} (l : List α) (p : α → Bool) (i : Nat) (hi : i < l.length)
    (h1 : p (l.get ⟨i, hi⟩) = true)
    (h2 : ∀ j (hj : j < l.length), j < i → p (l.get ⟨j, hj⟩) = false) :
    l.find? p = some (l.get ⟨i, hi⟩) := by
  induction l generalizing i with
  | nil => exact absurd hi (by simp)
  | cons a t ih =>
    cases i with
    | zero =>
      have h1' : p a = true := h1
      rw [List.find?_cons_of_pos _ h1']
      rfl
    | succ k =>
      have ha : p a = false := h2 0 (by simp) (Nat.succ_pos k)
      rw [List.find?_cons_of_neg _ (by simp [ha])]
      have hk : k < t.length := Nat.lt_of_succ_lt_succ hi
      exact ih k hk h1 (fun j hj hjk => h2 (j + 1) (Nat.succ_lt_succ hj) (Nat.succ_lt_succ hjk))

theorem pct_eq_specYoY_of_consecutive (data : List TaxiRow)
    (h : MonthConsecutive data) :
    pctChange12 (data.map TaxiRow.tripsPerDay) = specYoY data := by
  obtain ⟨hm0, hc0⟩ := h
  have hc : data.Chain' MonthStep := (monthChainB_eq_true_iff data).mp hc0
  have hm : ∀ r ∈ data, 1 ≤ r.monthNum ∧ r.monthNum ≤ 12 := by
    intro r hr
    have hr2 := List.all_eq_true.mp hm0 r hr
    simpa using hr2
  have hlen : (pctChange12 (data.map TaxiRow.tripsPerDay)).length = (specYoY data).length := by
    simp [pctChange12, specYoY]
  apply List.ext_get hlen
  intro i h1 h2
  have hi : i < data.length := by simpa [pctChange12] using h1
  have h0 : 0 < data.length := by omega
  have hrange : ∀ j (hj : j < data.length),
      1 ≤ (data.get ⟨j, hj⟩).monthNum ∧ (data.get ⟨j, hj⟩).monthNum ≤ 12 :=
    fun j hj => hm _ (data.get_mem _ _)
  -- the left-hand entry
  have hL : (pctChange12 (data.map TaxiRow.tripsPerDay)).get ⟨i, h1⟩
      = if i < 12 then none
        else some (pctChangeVal ((data.map TaxiRow.tripsPerDay).getD (i - 12) 0)
          ((data.map TaxiRow.tripsPerDay).getD i 0)) := by
    simp [pctChange12]
  have hR : (specYoY data).get ⟨i, h2⟩
      = match data.find? (fun p => p.year + 1 == (data.get ⟨i, hi⟩).year
          && p.monthNum == (data.get ⟨i, hi⟩).monthNum) with
        | some p => some (pctChangeVal p.tripsPerDay (data.get ⟨i, hi⟩).tripsPerDay)
        | none => none := by
    simp [specYoY]
  rw [hL, hR]
  by_cases h12 : i < 12
  · rw [if_pos h12]
    have hnone : data.find? (fun p => p.year + 1 == (data.get ⟨i, hi⟩).year
        && p.monthNum == (data.get ⟨i, hi⟩).monthNum) = none := by
      rw [List.find?_eq_none]
      intro p hp hpred
      obtain ⟨⟨j, hj⟩, hpj⟩ := List.mem_iff_get.mp hp
      rw [← hpj] at hpred
      simp only [Bool.and_eq_true, beq_iff_eq] at hpred
      have hdj := chain_dateIdx hc j hj h0
      have hdi := chain_dateIdx hc i hi h0
      have hplus : dateIdx (data.get ⟨j, hj⟩).year (data.get ⟨j, hj⟩).monthNum + 12
          = dateIdx (data.get ⟨i, hi⟩).year (data.get ⟨i, hi⟩).monthNum := by
        unfold dateIdx
        omega
      omega
    rw [hnone]
  · rw [if_neg h12]
    have hsub : i - 12 < data.length := by omega
    -- the row twelve positions earlier is the same month of the prior year
    have hd1 := chain_dateIdx hc (i - 12) hsub h0
    have hd2 := chain_dateIdx hc i hi h0
    have hr1 := hrange (i - 12) hsub
    have hr2 := hrange i hi
    have hkey : (data.get ⟨i - 12, hsub⟩).year + 1 = (data.get ⟨i, hi⟩).year
        ∧ (data.get ⟨i - 12, hsub⟩).monthNum = (data.get ⟨i, hi⟩).monthNum := by
      unfold dateIdx at hd1 hd2
      constructor <;> omega
    have hfind : data.find? (fun p => p.year + 1 == (data.get ⟨i, hi⟩).year
        && p.monthNum == (data.get ⟨i, hi⟩).monthNum) = some (data.get ⟨i - 12, hsub⟩) := by
      apply find?_eq_get_of data _ (i - 12) hsub
      · simp only [Bool.and_eq_true, beq_iff_eq]
        exact hkey
      · intro j hj hjlt
        have hdj := chain_dateIdx hc j hj h0
        cases hb : (data.get ⟨j, hj⟩).year + 1 == (data.get ⟨i, hi⟩).year
          && (data.get ⟨j, hj⟩).monthNum == (data.get ⟨i, hi⟩).monthNum with
        | false => rfl
        | true =>
          exfalso
          simp only [Bool.and_eq_true, beq_iff_eq] at hb
          have hplus : dateIdx (data.get ⟨j, hj⟩).year (data.get ⟨j, hj⟩).monthNum + 12
              = dateIdx (data.get ⟨i, hi⟩).year (data.get ⟨i, hi⟩).monthNum := by
            unfold dateIdx
            omega
          omega
    rw [hfind]
    have hgD1 : (data.map TaxiRow.tripsPerDay).getD (i - 12) 0
        = (data.get ⟨i - 12, hsub⟩).tripsPerDay := by
      rw [List.getD_eq_getElem _ _ (by simpa using hsub)]
      simp
    have hgD2 : (data.map TaxiRow.tripsPerDay).getD i 0
        = (data.get ⟨i, hi⟩).tripsPerDay := by
      rw [List.getD_eq_getElem _ _ (by simpa using hi)]
      simp
    rw [hgD1, hgD2]

/-- C1 amended: the year-over-year metric is positional
`pct_change(periods=12)`; whenever the filtered series consists of
consecutive calendar months, it coincides pointwise with the spec's
same-calendar-month-of-prior-year comparison (missing exactly on the
first twelve rows, whose prior-year months are absent). -/
theorem taxi_yoy_pct_change_amended (df : List TaxiRow) (lc : String) (s e : Nat)
    (h : MonthConsecutive (taxiFiltered df lc s e)) :
    updateTaxiGraphPct df lc s e = specYoY (taxiFiltered df lc s e) :=
  pct_eq_specYoY_of_consecutive _ h

/-- A gap-free monthly series: January 2021 through January 2022. -/
def taxiFullSeries : List TaxiRow :=
  [⟨"Yellow", 2021, 1, 200⟩, ⟨"Yellow", 2021, 2, 100⟩, ⟨"Yellow", 2021, 3, 100⟩,
   ⟨"Yellow", 2021, 4, 100⟩, ⟨"Yellow", 2021, 5, 100⟩, ⟨"Yellow", 2021, 6, 100⟩,
   ⟨"Yellow", 2021, 7, 100⟩, ⟨"Yellow", 2021, 8, 100⟩, ⟨"Yellow", 2021, 9, 100⟩,
   ⟨"Yellow", 2021, 10, 100⟩, ⟨"Yellow", 2021, 11, 100⟩, ⟨"Yellow", 2021, 12, 100⟩,
   ⟨"Yellow", 2022, 1, 300⟩]

/-- Witness for C1 (amended) on the gap-free series `taxiFullSeries`. -/
theorem taxi_yoy_pct_change_amended_witness :
    MonthConsecutive (taxiFiltered taxiFullSeries "Yellow" 0 100000) ∧
    updateTaxiGraphPct taxiFullSeries "Yellow" 0 100000
      = specYoY (taxiFiltered taxiFullSeries "Yellow" 0 100000) :=
  ⟨by decide, taxi_yoy_pct_change_amended taxiFullSeries "Yellow" 0 100000 (by decide)⟩

/-! ## The Google-Drive bus loader (app_bus.py lines 19-94)

`load_bus_data` reads the first 50,000 rows of each of two CSVs
(`nrows=50000`), parses `transit_timestamp` with one fixed format per file
(`%m/%d/%Y %H:%M` for the 2020-2024 file, `%m/%d/%Y %I:%M:%S %p` for the
2025 file, `errors="coerce"`), drops rows whose timestamp did not parse,
concatenates, aggregates ridership by `(bus_route, Year, Month)`, renames
`bus_route` to `Route`, and then logs `bus_monthly["Ridership"]`. -/

/-- One raw row of a bus ridership CSV: the unparsed `transit_timestamp`
string, the `bus_route` and the integer `ridership` count. -/
structure RawBusRow where
  transit_timestamp : String
  bus_route : String
  ridership : ℤ
deriving DecidableEq

/-- A parsed timestamp, to minute resolution plus seconds. -/
structure ParsedStamp where
  year : Nat
  month : Nat
  day : Nat
  hour : Nat
  minute : Nat
  second : Nat
deriving DecidableEq

/-- A run of `lo` to `hi` ASCII digits, read as a number (the digit-count
tolerance of the dataframe library's strptime-style fields). -/
def digitsToNat? (lo hi : Nat) (cs : List Char) : Option Nat :=
  if lo ≤ cs.length ∧ cs.length ≤ hi ∧ cs.all Char.isDigit then
    some (cs.foldl (fun n c => 10 * n + (c.toNat - 48)) 0)
  else none

def isLeapYear (y : Nat) : Bool :=
  (y % 4 == 0 && y % 100 != 0) || y % 400 == 0

def daysInMonth (y m : Nat) : Nat :=
  if m = 2 then (if isLeapYear y then 29 else 28)
  else if m = 4 ∨ m = 6 ∨ m = 9 ∨ m = 11 then 30
  else 31

/-- Strict parse of the `%m/%d/%Y %H:%M` format used for the 2020-2024
file (app_bus.py line 40), e.g. `10/23/2024 1:00`. -/
def parseHM (s : String) : Option ParsedStamp :=
  match s.data.splitOn '/' with
  | [ms, ds, rest] =>
    match rest.splitOn ' ' with
    | [ys, hm] =>
      match hm.splitOn ':' with
      | [hs, mins] => do
        let m ← digitsToNat? 1 2 ms
        let d ← digitsToNat? 1 2 ds
        let y ← digitsToNat? 1 4 ys
        let hh ← digitsToNat? 1 2 hs
        let mm ← digitsToNat? 1 2 mins
        if 1 ≤ m ∧ m ≤ 12 ∧ 1 ≤ d ∧ d ≤ daysInMonth y m ∧ hh ≤ 23 ∧ mm ≤ 59 then
          some ⟨y, m, d, hh, mm, 0⟩
        else none
      | _ => none
    | _ => none
  | _ => none

/-- Strict parse of the `%m/%d/%Y %I:%M:%S %p` format used for the 2025
file (app_bus.py line 43), e.g. `01/02/2025 07:00:00 AM`. -/
def parseIMSp (s : String) : Option ParsedStamp :=
  match s.data.splitOn '/' with
  | [ms, ds, rest] =>
    match rest.splitOn ' ' with
    | [ys, hms, ap] =>
      match hms.splitOn ':' with
      | [hs, mins, secs] => do
        let m ← digitsToNat? 1 2 ms
        let d ← digitsToNat? 1 2 ds
        let y ← digitsToNat? 1 4 ys
        let h12 ← digitsToNat? 1 2 hs
        let mm ← digitsToNat? 1 2 mins
        let ss ← digitsToNat? 1 2 secs
        let apU := ap.map Char.toUpper
        if 1 ≤ m ∧ m ≤ 12 ∧ 1 ≤ d ∧ d ≤ daysInMonth y m
            ∧ 1 ≤ h12 ∧ h12 ≤ 12 ∧ mm ≤ 59 ∧ ss ≤ 59 then
          if apU = "AM".data then some ⟨y, m, d, h12 % 12, mm, ss⟩
          else if apU = "PM".data then some ⟨y, m, d, h12 % 12 + 12, mm, ss⟩
          else none
        else none
      | _ => none
    | _ => none
  | _ => none

/-- Parse-and-drop for the 2020-2024 frame (app_bus.py lines 40 and 46):
rows whose timestamp fails the fixed format are coerced to `NaT` and
removed by `dropna`. -/
def parseBusRows1 (l : List RawBusRow) : List (ParsedStamp × String × ℤ) :=
  l.filterMap fun r =>
    (parseHM r.transit_timestamp).map fun d => (d, r.bus_route, r.ridership)

/-- Parse-and-drop for the 2025 frame (app_bus.py lines 43 and 47). -/
def parseBusRows2 (l : List RawBusRow) : List (ParsedStamp × String × ℤ) :=
  l.filterMap fun r =>
    (parseIMSp r.transit_timestamp).map fun d => (d, r.bus_route, r.ridership)

/-- The monthly aggregate of app_bus.py line 61 viewed as a total mapping:
`groupby(["bus_route", "Year", "Month", "YearMonth"])["ridership"].sum()`
(the `YearMonth` key is a function of `Year` and `Month`). -/
def busMonthlyRider (rows : List (ParsedStamp × String × ℤ)) (k : String × Nat × Nat) : ℤ :=
  ((rows.filter fun x => x.2.1 = k.1 ∧ x.1.year = k.2.1 ∧ x.1.month = k.2.2).map
    (fun x => x.2.2)).sum

/-- Lines 40-62 applied to the two in-memory frames: parse and drop each
frame with its own single format, concatenate, aggregate monthly. -/
def busMonthlyFromFrames (d1 d2 : List RawBusRow) : (String × Nat × Nat) → ℤ :=
  busMonthlyRider (parseBusRows1 d1 ++ parseBusRows2 d2)

/-- `pd.read_csv(url, nrows=n)`: only the first `n` rows of the file are
read (app_bus.py lines 26 and 32 with `n = 50000`). -/
def readCsvNrows (n : Nat) (file : List RawBusRow) : List RawBusRow :=
  file.take n

/-- The monthly aggregate computed by `load_bus_data` from the two source
files: both reads are truncated to 50,000 rows. -/
def loadBusMonthly (f1 f2 : List RawBusRow) : (String × Nat × Nat) → ℤ :=
  busMonthlyFromFrames (readCsvNrows 50000 f1) (readCsvNrows 50000 f2)

/-- The column list of `bus_monthly` after the aggregation of line 61 and
the rename of line 62 (`bus_route` to `Route`): the summed value column
keeps its lowercase source name `ridership`. -/
def busMonthlyCols : List String :=
  (["bus_route", "Year", "Month", "YearMonth"] ++ ["ridership"]).map
    fun c => if c = "bus_route" then "Route" else c

/-- `df[c]`: column access on a dataframe with columns `cols`, raising
`KeyError` when absent. -/
def getColumn (cols : List String) (c : String) : Except String Unit :=
  if c ∈ cols then .ok () else .error ("KeyError: " ++ c)

/-- The `try` body of `load_bus_data` (app_bus.py lines 24-69), given that
both downloads succeeded with the expected columns: compute the monthly
aggregate, then run the logging accesses of lines 65-67, which read the
`Route`, `YearMonth` and `Ridership` columns of `bus_monthly`. -/
def loadBusDataSuccess (f1 f2 : List RawBusRow) :
    Except String ((String × Nat × Nat) → ℤ) := do
  let agg := loadBusMonthly f1 f2
  let _ ← getColumn busMonthlyCols "Route"
  let _ ← getColumn busMonthlyCols "YearMonth"
  let _ ← getColumn busMonthlyCols "Ridership"
  pure agg

/-- The value returned by `load_bus_data`: the aggregate of the downloaded
data when the `try` body succeeds, otherwise the randomly generated sample
table of the `except` handler (lines 71-94). -/
inductive BusData where
  | downloaded (agg : (String × Nat × Nat) → ℤ)
  | sample
deriving Inhabited

def load_bus_data (f1 f2 : List RawBusRow) : BusData :=
  match loadBusDataSuccess f1 f2 with
  | .ok agg => .downloaded agg
  | .error _ => .sample

/-- C9: whatever the two downloaded files contain, the success branch of
`load_bus_data` dies with a `KeyError` on the capitalized column name
`Ridership` (the aggregate's count column is the lowercase `ridership`),
and the function therefore always returns the sample table, never an
aggregate of the downloaded data. -/
theorem bus_gdrive_always_sample :
    ("Ridership" ∉ busMonthlyCols ∧ "ridership" ∈ busMonthlyCols) ∧
    (∀ f1 f2 : List RawBusRow, loadBusDataSuccess f1 f2 = .error "KeyError: Ridership") ∧
    (∀ f1 f2 : List RawBusRow, load_bus_data f1 f2 = .sample) :=
  ⟨by decide, fun _ _ => rfl, fun _ _ => rfl⟩

/-- The spec's reading of timestamp parsing, for comparison with the
per-file single-format behaviour of the code: try the known formats in a
fixed priority order, first success wins. -/
def specPriorityParse (s : String) : Option ParsedStamp :=
  (parseHM s).orElse fun _ => parseIMSp s

/-- C3 counterexample: the timestamp `01/02/2025 07:00:00 AM` parses under
a known format (the AM/PM one, as `specPriorityParse` shows), yet a record
carrying it in the 2020-2024 file is dropped from the aggregate — only the
file's own format is ever tried — while the same record in the 2025 file
is kept. -/
theorem bus_timestamp_priority_counterexample :
    specPriorityParse "01/02/2025 07:00:00 AM" ≠ none ∧
    busMonthlyFromFrames [⟨"01/02/2025 07:00:00 AM", "M15", 5⟩] [] ("M15", 2025, 1) = 0 ∧
    busMonthlyFromFrames [] [⟨"01/02/2025 07:00:00 AM", "M15", 5⟩] ("M15", 2025, 1) = 5 :=
  ⟨by decide, by decide, by decide⟩

/-- C3 amended: a record whose timestamp parses under neither known format
is excluded from the monthly aggregate (dropped by the coerce-then-dropna
step of its file), wherever it sits in either file, and the load stays
defined. -/
theorem bus_unparseable_dropped :
    (∀ a b f2 : List RawBusRow, ∀ r : RawBusRow,
      parseHM r.transit_timestamp = none → parseIMSp r.transit_timestamp = none →
      busMonthlyFromFrames (a ++ r :: b) f2 = busMonthlyFromFrames (a ++ b) f2) ∧
    (∀ f1 a b : List RawBusRow, ∀ r : RawBusRow,
      parseHM r.transit_timestamp = none → parseIMSp r.transit_timestamp = none →
      busMonthlyFromFrames f1 (a ++ r :: b) = busMonthlyFromFrames f1 (a ++ b)) := by
  constructor
  · intro a b f2 r h1 h2
    have hx : parseBusRows1 (a ++ r :: b) = parseBusRows1 (a ++ b) := by
      simp [parseBusRows1, List.filterMap_append, List.filterMap_cons, h1]
    unfold busMonthlyFromFrames
    rw [hx]
  · intro f1 a b r h1 h2
    have hx : parseBusRows2 (a ++ r :: b) = parseBusRows2 (a ++ b) := by
      simp [parseBusRows2, List.filterMap_append, List.filterMap_cons, h2]
    unfold busMonthlyFromFrames
    rw [hx]

/-- A 2020-2024 row with a well-formed timestamp. -/
def okBusRow1 : RawBusRow := ⟨"10/23/2024 1:00", "M15", 7⟩

/-- A row whose timestamp parses under no known format. -/
def badBusRow : RawBusRow := ⟨"not a timestamp", "M15", 9⟩

/-- Witness for C3 (amended) at a concrete unparseable record. -/
theorem bus_unparseable_dropped_witness :
    parseHM badBusRow.transit_timestamp = none ∧
    parseIMSp badBusRow.transit_timestamp = none ∧
    busMonthlyFromFrames ([okBusRow1] ++ badBusRow :: []) [] =
      busMonthlyFromFrames ([okBusRow1] ++ []) [] :=
  ⟨by decide, by decide,
   bus_unparseable_dropped.1 [okBusRow1] [] [] badBusRow (by decide) (by decide)⟩

/-- C4 amended: the Google-Drive bus loader aggregates exactly the first
50,000 rows of each source file — there is no chunked accumulation — and
it therefore agrees with full-file processing precisely when each file
fits within that prefix. -/
theorem bus_load_prefix_amended :
    (∀ f1 f2 : List RawBusRow,
      loadBusMonthly f1 f2 = busMonthlyFromFrames (f1.take 50000) (f2.take 50000)) ∧
    (∀ f1 f2 : List RawBusRow, f1.length ≤ 50000 → f2.length ≤ 50000 →
      loadBusMonthly f1 f2 = busMonthlyFromFrames f1 f2) := by
  constructor
  · intro f1 f2
    rfl
  · intro f1 f2 h1 h2
    unfold loadBusMonthly readCsvNrows
    rw [List.take_of_length_le h1, List.take_of_length_le h2]

/-- Witness for C4 (amended) on a file that fits in the prefix. -/
theorem bus_load_prefix_amended_witness :
    ([okBusRow1] : List RawBusRow).length ≤ 50000 ∧
    loadBusMonthly [okBusRow1] [] = busMonthlyFromFrames [okBusRow1] [] :=
  ⟨by decide, bus_load_prefix_amended.2 [okBusRow1] [] (by decide) (by decide)⟩

theorem busMonthlyRider_append (A B : List (ParsedStamp × String × ℤ))
    (k : String × Nat × Nat) :
    busMonthlyRider (A ++ B) k = busMonthlyRider A k + busMonthlyRider B k := by
  simp [busMonthlyRider, List.filter_append]

theorem busMonthlyRider_eq_zero {A : List (ParsedStamp × String × ℤ)}
    {k : String × Nat × Nat} (h : ∀ x ∈ A, x.2.1 ≠ k.1) :
    busMonthlyRider A k = 0 := by
  unfold busMonthlyRider
  have hnil : (A.filter fun x => x.2.1 = k.1 ∧ x.1.year = k.2.1 ∧ x.1.month = k.2.2) = [] := by
    rw [List.filter_eq_nil_iff]
    intro x hx
    simp only [decide_eq_true_eq]
    rintro ⟨h1, -, -⟩
    exact h x hx h1
  rw [hnil]
  rfl

theorem parseBusRows1_replicate_route (n : Nat) (r : RawBusRow) :
    ∀ x ∈ parseBusRows1 (List.replicate n r), x.2.1 = r.bus_route := by
  intro x hx
  simp only [parseBusRows1, List.mem_filterMap] at hx
  obtain ⟨a, ha, hx2⟩ := hx
  rw [List.eq_of_mem_replicate ha] at hx2
  cases hp : parseHM r.transit_timestamp with
  | none => rw [hp] at hx2; simp at hx2
  | some d =>
    rw [hp] at hx2
    simp only [Option.map_some'] at hx2
    rw [← Option.some.injEq] at hx2
    cases hx2
    rfl

/-- The replicated head row of the oversized file. -/
def fillerBusRow : RawBusRow := ⟨"10/23/2024 1:00", "M15", 1⟩

/-- The row sitting just past the 50,000-row read window. -/
def tailBusRow : RawBusRow := ⟨"10/23/2024 1:00", "QM1", 5⟩

/-- A source file one row longer than the `nrows=50000` read window. -/
def longBusFile : List RawBusRow :=
  List.replicate 50000 fillerBusRow ++ [tailBusRow]

/-- C4 counterexample: on a 50,001-row file the loader reports 0 for route
QM1 in October 2024 although the file's last record contributes 5 — the
record beyond the `nrows=50000` window is never processed, so not every
record of the file reaches the aggregate. -/
theorem bus_truncation_counterexample :
    loadBusMonthly longBusFile [] ("QM1", 2024, 10) = 0 ∧
    busMonthlyFromFrames longBusFile [] ("QM1", 2024, 10) = 5 := by
  have htake : longBusFile.take 50000 = List.replicate 50000 fillerBusRow := by
    unfold longBusFile
    exact List.take_left' (List.length_replicate 50000 fillerBusRow)
  have hzero : busMonthlyRider (parseBusRows1 (List.replicate 50000 fillerBusRow))
      ("QM1", 2024, 10) = 0 := by
    apply busMonthlyRider_eq_zero
    intro x hx
    rw [parseBusRows1_replicate_route 50000 fillerBusRow x hx]
    decide
  constructor
  · show busMonthlyFromFrames (readCsvNrows 50000 longBusFile)
      (readCsvNrows 50000 []) ("QM1", 2024, 10) = 0
    rw [show readCsvNrows 50000 longBusFile = longBusFile.take 50000 from rfl, htake]
    show busMonthlyRider (parseBusRows1 (List.replicate 50000 fillerBusRow)
      ++ parseBusRows2 []) ("QM1", 2024, 10) = 0
    rw [show parseBusRows2 [] = [] from rfl, List.append_nil]
    exact hzero
  · show busMonthlyRider (parseBusRows1 (List.replicate 50000 fillerBusRow ++ [tailBusRow])
      ++ parseBusRows2 []) ("QM1", 2024, 10) = 5
    rw [show parseBusRows2 [] = [] from rfl, List.append_nil]
    rw [show parseBusRows1 (List.replicate 50000 fillerBusRow ++ [tailBusRow])
      = parseBusRows1 (List.replicate 50000 fillerBusRow) ++ parseBusRows1 [tailBusRow]
      from List.filterMap_append _ _ _]
    rw [busMonthlyRider_append, hzero]
    have htail : busMonthlyRider (parseBusRows1 [tailBusRow]) ("QM1", 2024, 10) = 5 := by
      decide
    rw [htail]
    omega

/-! ## Schema auto-detection in load_bus_csv (app.py lines 62-116) -/

/-- The timestamp column aliases tried by `load_bus_csv`, in order. -/
def dateColCandidates : List String :=
  ["Timestamp", "Hour", "Date", "Service Date", "Datetime", "DateTime", "transit_timestamp"]

/-- The ridership column aliases, in order. -/
def rideColCandidates : List String :=
  ["Ridership", "ridership", "Rides", "Entries", "Total_Ridership", "Bus Ridership"]

/-- The route column aliases, in order. -/
def routeColCandidates : List String :=
  ["Route", "Line", "Bus Line", "route_id", "bus_route"]

/-- The failure modes of `load_bus_csv`: a `ValueError` naming the field
whose aliases are all absent (lines 81, 102, 108), or a `KeyError` from
the final three-column selection of line 116. -/
inductive SchemaError where
  | missingDate
  | missingRide
  | missingRoute
  | selectKeyError (c : String)
deriving DecidableEq

/-- `[col for col in candidates if col in df.columns][0]`, when any. -/
def firstPresent (cands cols : List String) : Option String :=
  (cands.filter fun c => c ∈ cols).head?

/-- The three-way alias resolution of `load_bus_csv`: timestamp column
first (lines 66-82), then ridership (lines 88-103), then route
(lines 105-109). -/
def resolveBusCols (cols : List String) : Except SchemaError (String × String × String) :=
  match firstPresent dateColCandidates cols with
  | none => .error .missingDate
  | some dc =>
    match firstPresent rideColCandidates cols with
    | none => .error .missingRide
    | some rc =>
      match firstPresent routeColCandidates cols with
      | none => .error .missingRoute
      | some qc => .ok (dc, rc, qc)

/-- The rename map of line 112: the chosen date/rides/route columns get
their canonical names. -/
def renameTo (dc rc qc c : String) : String :=
  if c = dc then "Timestamp" else if c = rc then "Ridership" else if c = qc then "Route" else c

/-- `load_bus_csv` at schema level: resolve the aliases, rename, then
select `df_bus[["Timestamp", "Route", "Ridership"]]` (a `KeyError` if a
canonical column were absent after the rename). -/
def loadBusCsvCols (cols : List String) : Except SchemaError (List String) :=
  match resolveBusCols cols with
  | .error e => .error e
  | .ok (dc, rc, qc) =>
    let renamed := cols.map (renameTo dc rc qc)
    if "Timestamp" ∈ renamed then
      if "Route" ∈ renamed then
        if "Ridership" ∈ renamed then
          .ok ["Timestamp", "Route", "Ridership"]
        else .error (.selectKeyError "Ridership")
      else .error (.selectKeyError "Route")
    else .error (.selectKeyError "Timestamp")

theorem firstPresent_eq_none_iff (cands cols : List String) :
    firstPresent cands cols = none ↔ ∀ c ∈ cands, c ∉ cols := by
  unfold firstPresent
  rw [List.head?_eq_none_iff, List.filter_eq_nil_iff]
  simp

theorem firstPresent_mem {cands cols : List String} {c : String}
    (h : firstPresent cands cols = some c) : c ∈ cands ∧ c ∈ cols := by
  unfold firstPresent at h
  have hmem : c ∈ cands.filter fun x => x ∈ cols := List.mem_of_mem_head? (by rw [h]; rfl)
  rw [List.mem_filter] at hmem
  exact ⟨hmem.1, by simpa using hmem.2⟩

/-- C5: `load_bus_csv` fails exactly when some field has no present alias;
a `missing`-field error correctly names a field all of whose aliases are
absent; the `KeyError` branch of the final selection is unreachable; and
on success the resulting table has exactly the canonical
`Timestamp, Route, Ridership` columns. -/
theorem load_bus_csv_schema_resolution (cols : List String) :
    ((∃ e, loadBusCsvCols cols = .error e) ↔
      ((∀ c ∈ dateColCandidates, c ∉ cols) ∨ (∀ c ∈ rideColCandidates, c ∉ cols) ∨
        (∀ c ∈ routeColCandidates, c ∉ cols))) ∧
    (loadBusCsvCols cols = .error .missingDate → ∀ c ∈ dateColCandidates, c ∉ cols) ∧
    (loadBusCsvCols cols = .error .missingRide → ∀ c ∈ rideColCandidates, c ∉ cols) ∧
    (loadBusCsvCols cols = .error .missingRoute → ∀ c ∈ routeColCandidates, c ∉ cols) ∧
    (∀ c, loadBusCsvCols cols ≠ .error (.selectKeyError c)) ∧
    (∀ out, loadBusCsvCols cols = .ok out → out = ["Timestamp", "Route", "Ridership"]) := by
  have hdisj1 : ∀ x ∈ rideColCandidates, x ∉ dateColCandidates := by decide
  have hdisj2 : ∀ x ∈ routeColCandidates, x ∉ dateColCandidates := by decide
  have hdisj3 : ∀ x ∈ routeColCandidates, x ∉ rideColCandidates := by decide
  -- case analysis on the three alias lookups
  cases h1 : firstPresent dateColCandidates cols with
  | none =>
    have herr : loadBusCsvCols cols = .error .missingDate := by
      unfold loadBusCsvCols resolveBusCols
      rw [h1]
    have habs := (firstPresent_eq_none_iff dateColCandidates cols).mp h1
    refine ⟨⟨fun _ => Or.inl habs, fun _ => ⟨.missingDate, herr⟩⟩, fun _ => habs,
      ?_, ?_, ?_, ?_⟩
    · intro hcon; rw [herr] at hcon; cases hcon
    · intro hcon; rw [herr] at hcon; cases hcon
    · intro c hcon; rw [herr] at hcon; cases hcon
    · intro out hcon; rw [herr] at hcon; cases hcon
  | some dc =>
    have hd := firstPresent_mem h1
    cases h2 : firstPresent rideColCandidates cols with
    | none =>
      have herr : loadBusCsvCols cols = .error .missingRide := by
        unfold loadBusCsvCols resolveBusCols
        rw [h1, h2]
      have habs := (firstPresent_eq_none_iff rideColCandidates cols).mp h2
      refine ⟨⟨fun _ => Or.inr (Or.inl habs), fun _ => ⟨.missingRide, herr⟩⟩,
        ?_, fun _ => habs, ?_, ?_, ?_⟩
      · intro hcon; rw [herr] at hcon; cases hcon
      · intro hcon; rw [herr] at hcon; cases hcon
      · intro c hcon; rw [herr] at hcon; cases hcon
      · intro out hcon; rw [herr] at hcon; cases hcon
    | some rc =>
      have hr := firstPresent_mem h2
      cases h3 : firstPresent routeColCandidates cols with
      | none =>
        have herr : loadBusCsvCols cols = .error .missingRoute := by
          unfold loadBusCsvCols resolveBusCols
          rw [h1, h2, h3]
        have habs := (firstPresent_eq_none_iff routeColCandidates cols).mp h3
        refine ⟨⟨fun _ => Or.inr (Or.inr habs), fun _ => ⟨.missingRoute, herr⟩⟩,
          ?_, ?_, fun _ => habs, ?_, ?_⟩
        · intro hcon; rw [herr] at hcon; cases hcon
        · intro hcon; rw [herr] at hcon; cases hcon
        · intro c hcon; rw [herr] at hcon; cases hcon
        · intro out hcon; rw [herr] at hcon; cases hcon
      | some qc =>
        have hres : resolveBusCols cols = .ok (dc, rc, qc) := by
          unfold resolveBusCols
          rw [h1, h2, h3]
        obtain ⟨hd1, hd2⟩ := hd
        obtain ⟨hr1, hr2⟩ := hr
        obtain ⟨hq1, hq2⟩ := firstPresent_mem h3
        have hne1 : rc ≠ dc := fun hcon => hdisj1 rc hr1 (hcon ▸ hd1)
        have hne2 : qc ≠ dc := fun hcon => hdisj2 qc hq1 (hcon ▸ hd1)
        have hne3 : qc ≠ rc := fun hcon => hdisj3 qc hq1 (hcon ▸ hr1)
        have hmemT : "Timestamp" ∈ cols.map (renameTo dc rc qc) := by
          refine List.mem_map.mpr ⟨dc, hd2, ?_⟩
          simp [renameTo]
        have hmemR : "Route" ∈ cols.map (renameTo dc rc qc) := by
          refine List.mem_map.mpr ⟨qc, hq2, ?_⟩
          simp [renameTo, hne2, hne3]
        have hmemRi : "Ridership" ∈ cols.map (renameTo dc rc qc) := by
          refine List.mem_map.mpr ⟨rc, hr2, ?_⟩
          simp [renameTo, hne1]
        have hsucc : loadBusCsvCols cols = .ok ["Timestamp", "Route", "Ridership"] := by
          unfold loadBusCsvCols
          rw [hres]
          dsimp only
          rw [if_pos hmemT, if_pos hmemR, if_pos hmemRi]
        have hnotabs : ¬ ((∀ c ∈ dateColCandidates, c ∉ cols) ∨
            (∀ c ∈ rideColCandidates, c ∉ cols) ∨ (∀ c ∈ routeColCandidates, c ∉ cols)) := by
          rintro (habs | habs | habs)
          · exact habs dc hd1 hd2
          · exact habs rc hr1 hr2
          · exact habs qc (firstPresent_mem h3).1 (firstPresent_mem h3).2
        refine ⟨⟨?_, fun habs => absurd habs hnotabs⟩, ?_, ?_, ?_, ?_, ?_⟩
        · rintro ⟨e, he⟩
          rw [hsucc] at he
          cases he
        · intro hcon; rw [hsucc] at hcon; cases hcon
        · intro hcon; rw [hsucc] at hcon; cases hcon
        · intro hcon; rw [hsucc] at hcon; cases hcon
        · intro c hcon; rw [hsucc] at hcon; cases hcon
        · intro out hout
          rw [hsucc] at hout
          cases hout
          rfl

/-- Witness for C5 at concrete column sets: the 2020-2024 bus file schema
resolves to the canonical columns, and a file with no route alias fails. -/
theorem load_bus_csv_schema_resolution_witness :
    loadBusCsvCols ["transit_timestamp", "bus_route", "ridership"]
      = .ok ["Timestamp", "Route", "Ridership"] ∧
    (∃ e, loadBusCsvCols ["transit_timestamp", "ridership"] = .error e) := by
  constructor
  · cases hcase : loadBusCsvCols ["transit_timestamp", "bus_route", "ridership"] with
    | error e =>
      have habs := ((load_bus_csv_schema_resolution
        ["transit_timestamp", "bus_route", "ridership"]).1).mp ⟨e, hcase⟩
      exact absurd habs (by decide)
    | ok out =>
      rw [(load_bus_csv_schema_resolution
        ["transit_timestamp", "bus_route", "ridership"]).2.2.2.2.2 out hcase]
  · exact ((load_bus_csv_schema_resolution ["transit_timestamp", "ridership"]).1).mpr
      (Or.inr (Or.inr (by decide)))

/-! ## Taxi count normalization (app.py lines 42-44, app_taxi.py lines 13-15)

`taxi_df["Trips Per Day"].astype(str).str.replace(",", "", regex=False)
.replace("-", pd.NA).astype(float)`. -/

/-- `str.replace(",", "")`: every comma is removed. -/
def removeCommas (cs : List Char) : List Char :=
  cs.filter fun c => c ≠ ','

/-- The numeric value of a run of ASCII digits. -/
def digitListVal (cs : List Char) : Nat :=
  cs.foldl (fun n c => 10 * n + (c.toNat - 48)) 0

/-- `float(s)` on a plain decimal string: optional leading minus sign, an
integer digit run, optionally a point and a fractional digit run; anything
else fails. -/
def parseFloat? (cs : List Char) : Option ℚ :=
  let signed : Bool × List Char :=
    match cs with
    | '-' :: rest => (true, rest)
    | _ => (false, cs)
  match signed.2.splitOn '.' with
  | [ip] =>
    if ip ≠ [] ∧ ip.all Char.isDigit then
      some ((if signed.1 then -1 else 1) * (digitListVal ip : ℚ))
    else none
  | [ip, fp] =>
    if (ip ≠ [] ∨ fp ≠ []) ∧ ip.all Char.isDigit ∧ fp.all Char.isDigit then
      some ((if signed.1 then -1 else 1)
        * ((digitListVal ip : ℚ) + (digitListVal fp : ℚ) / (10 : ℚ) ^ fp.length))
    else none
  | _ => none

/-- The `Trips Per Day` normalization: remove commas, send the exact
placeholder `-` to the missing marker (`pd.NA`), coerce the rest to float
(`ValueError` when that fails). -/
def normalizeTripsPerDay (s : String) : Except String (Option ℚ) :=
  let cs := removeCommas s.data
  if cs = "-".data then .ok none
  else
    match parseFloat? cs with
    | some q => .ok (some q)
    | none => .error "ValueError"

/-- C6: the thousands-separated count `"12,345"` normalizes to the number
12345 and the placeholder `"-"` to the missing marker; neither raises. -/
theorem taxi_count_normalization :
    normalizeTripsPerDay "12,345" = .ok (some 12345) ∧
    normalizeTripsPerDay "-" = .ok none := by
  constructor
  · have h1 : normalizeTripsPerDay "12,345"
        = .ok (some ((1 : ℚ) * ((12345 : ℕ) : ℚ))) := rfl
    rw [h1]
    norm_num
  · rfl

/-! ## The CRZ monthly cache artifact

`create_crz_summary.py` lines 79-97 group the CRZ table by
`(Year, MonthNum, Month, Detection Region, Vehicle Class, Detection Group)`,
sum `CRZ Entries`, and write the result with `to_csv(index=False)`;
`app_crz_optimized.py` lines 29-38 read it back with `read_csv`. -/

/-- One row of `crz_monthly_summary.csv`. -/
structure CrzMonthlyRow where
  year : Nat
  monthNum : Nat
  month : String
  region : String
  vehicleClass : String
  detGroup : String
  entries : Nat
deriving DecidableEq

/-- The cached table as a mapping from the grouping key to the summed
count. -/
def crzMonthlyTotal (t : List CrzMonthlyRow) (k : Nat × Nat × String × String × String) : Nat :=
  ((t.filter fun r => r.year = k.1 ∧ r.monthNum = k.2.1 ∧ r.region = k.2.2.1
      ∧ r.vehicleClass = k.2.2.2.1 ∧ r.detGroup = k.2.2.2.2).map CrzMonthlyRow.entries).sum

/-- The ASCII digit for `d`. -/
def digitChar (d : Nat) : Char := Char.ofNat (48 + d)

/-- Decimal rendering of a number field, as `to_csv` writes it. -/
def encodeNat (n : Nat) : List Char :=
  if n = 0 then ['0'] else (Nat.digits 10 n).reverse.map digitChar

/-- Reading a number field back (`read_csv` type inference on an integer
column). -/
def decodeNat? (cs : List Char) : Option Nat :=
  if cs ≠ [] ∧ cs.all Char.isDigit then some (digitListVal cs) else none

/-- `to_csv` minimal quoting (the csv module's QUOTE_MINIMAL): a field
containing the separator, the quote character or a line-break character is
wrapped in quotes with inner quotes doubled; any other field is written
verbatim. -/
def encodeField (cs : List Char) : List Char :=
  if cs.contains ',' || cs.contains '"' || cs.contains '\n' || cs.contains '\r' then
    '"' :: (cs.map fun c => if c = '"' then ['"', '"'] else [c]).flatten ++ ['"']
  else cs

/-- One line of the cache file: the seven fields joined by commas, in the
column order of the reset-index dataframe. -/
def encodeRow (r : CrzMonthlyRow) : List Char :=
  encodeNat r.year ++ ',' :: (encodeNat r.monthNum ++ ',' :: (encodeField r.month.data
    ++ ',' :: (encodeField r.region.data ++ ',' :: (encodeField r.vehicleClass.data
    ++ ',' :: (encodeField r.detGroup.data ++ ',' :: encodeNat r.entries)))))

/-- The header line written by `to_csv(index=False)`. -/
def csvHeader : List Char :=
  "Year,MonthNum,Month,Detection Region,Vehicle Class,Detection Group,CRZ Entries".data

/-- The byte stream of the data lines: each row rendered and terminated
by a newline. -/
def rowsBytes (t : List CrzMonthlyRow) : List Char :=
  (t.map fun r => encodeRow r ++ ['\n']).flatten

/-- `monthly_agg.to_csv("crz_monthly_summary.csv", index=False)`: the
header line and then each row, every line terminated by a newline. -/
def writeCsv (t : List CrzMonthlyRow) : List Char :=
  csvHeader ++ '\n' :: rowsBytes t

/-- Scan the body of a quoted field, after its opening quote: a doubled
quote is a literal quote, a single quote closes the field; input ending
inside a quoted field is a parse error.  Returns the field content and the
input after the closing quote. -/
def parseQuoted : List Char → Option (List Char × List Char)
  | [] => none
  | c :: rest =>
    if c = '"' then
      match rest with
      | [] => some ([], [])
      | c2 :: rest2 =>
        if c2 = '"' then (parseQuoted rest2).map fun p => ('"' :: p.1, p.2)
        else some ([], c2 :: rest2)
    else (parseQuoted rest).map fun p => (c :: p.1, p.2)

/-- Scan an unquoted field: everything up to the next separator or line
break.  Returns the field content and the rest, beginning with the
delimiter. -/
def parseBare : List Char → List Char × List Char
  | [] => ([], [])
  | c :: rest =>
    if c = ',' ∨ c = '\n' then ([], c :: rest)
    else (c :: (parseBare rest).1, (parseBare rest).2)

/-- Scan one field: a leading quote opens a quoted field, anything else is
an unquoted field. -/
def parseField : List Char → Option (List Char × List Char)
  | [] => some ([], [])
  | c :: rest => if c = '"' then parseQuoted rest else some (parseBare (c :: rest))

/-- Scan `, field` another `n` times and then the record terminator (a
line break, or the end of the input). -/
def parseFieldsAfter : Nat → List Char → Option (List (List Char) × List Char)
  | 0, [] => some ([], [])
  | 0, c :: rest => if c = '\n' then some ([], rest) else none
  | _ + 1, [] => none
  | n + 1, c :: rest =>
    if c = ',' then
      (parseField rest).bind fun p =>
        (parseFieldsAfter n p.2).map fun q => (p.1 :: q.1, q.2)
    else none

/-- Scan one seven-column record and its terminator. -/
def parseRecord7 (cs : List Char) : Option (List (List Char) × List Char) :=
  (parseField cs).bind fun p =>
    (parseFieldsAfter 6 p.2).map fun q => (p.1 :: q.1, q.2)

/-- Scan the whole file as seven-column records.  The fuel only bounds the
recursion depth; every record consumes at least its terminator, so a fuel
larger than the input length never runs out. -/
def parseRecordsGo : Nat → List Char → Option (List (List (List Char)))
  | 0, cs => if cs = [] then some [] else none
  | fuel + 1, cs =>
    if cs = [] then some []
    else (parseRecord7 cs).bind fun p =>
      (parseRecordsGo fuel p.2).map fun recs => p.1 :: recs

/-- The header fields of `crz_monthly_summary.csv`. -/
def csvHeaderFields : List (List Char) :=
  ["Year".data, "MonthNum".data, "Month".data, "Detection Region".data,
   "Vehicle Class".data, "Detection Group".data, "CRZ Entries".data]

/-- The seven field byte strings of one written row, as the reader hands
them back (any quoting removed again). -/
def rowFields (r : CrzMonthlyRow) : List (List Char) :=
  [encodeNat r.year, encodeNat r.monthNum, r.month.data, r.region.data,
   r.vehicleClass.data, r.detGroup.data, encodeNat r.entries]

/-- Turn one parsed record into a row: expect the seven columns and parse
the number fields at their typed positions. -/
def decodeFields? (fs : List (List Char)) : Option CrzMonthlyRow :=
  match fs with
  | [ys, ms, mo, reg, vc, dg, en] =>
    match decodeNat? ys, decodeNat? ms, decodeNat? en with
    | some y, some mn, some e =>
      some ⟨y, mn, String.mk mo, String.mk reg, String.mk vc, String.mk dg, e⟩
    | _, _, _ => none
  | _ => none

def decodeRows? : List (List (List Char)) → Option (List CrzMonthlyRow)
  | [] => some []
  | fs :: rest =>
    match decodeFields? fs, decodeRows? rest with
    | some r, some rs => some (r :: rs)
    | _, _ => none

/-- `pd.read_csv("crz_monthly_summary.csv")`: tokenize the file into
quoting-aware records, check the header record, decode the rest. -/
def readCsv? (cs : List Char) : Option (List CrzMonthlyRow) :=
  match parseRecordsGo (cs.length + 1) cs with
  | none => none
  | some [] => none
  | some (hdr :: rest) => if hdr = csvHeaderFields then decodeRows? rest else none

theorem val_digitChar {d : Nat} (h : d < 10) : (digitChar d).toNat - 48 = d := by
  unfold digitChar
  interval_cases d <;> decide

theorem isDigit_digitChar {d : Nat} (h : d < 10) : (digitChar d).isDigit = true := by
  unfold digitChar
  interval_cases d <;> decide

theorem isDigit_ne_comma {c : Char} (h : c.isDigit = true) : c ≠ ',' := by
  intro hc
  subst hc
  exact absurd h (by decide)

theorem isDigit_ne_newline {c : Char} (h : c.isDigit = true) : c ≠ '\n' := by
  intro hc
  subst hc
  exact absurd h (by decide)

theorem digitListVal_digits (ds : List Nat) (h : ∀ d ∈ ds, d < 10) :
    ∀ a : Nat, (ds.reverse.map digitChar).foldl (fun n c => 10 * n + (c.toNat - 48)) a
      = a * 10 ^ ds.length + Nat.ofDigits 10 ds := by
  induction ds with
  | nil => intro a; simp
  | cons d0 ds ih =>
    intro a
    have hrev : ((d0 :: ds).reverse.map digitChar)
        = ds.reverse.map digitChar ++ [digitChar d0] := by
      simp
    rw [hrev, List.foldl_append]
    rw [ih (fun d hd => h d (List.mem_cons_of_mem _ hd)) a]
    simp only [List.foldl_cons, List.foldl_nil]
    rw [val_digitChar (h d0 (List.mem_cons_self d0 ds))]
    rw [Nat.ofDigits_cons, List.length_cons, pow_succ]
    ring

theorem decodeNat?_encodeNat (n : Nat) : decodeNat? (encodeNat n) = some n := by
  unfold encodeNat
  by_cases h0 : n = 0
  · rw [if_pos h0, h0]
    decide
  · rw [if_neg h0]
    have hlt : ∀ d ∈ Nat.digits 10 n, d < 10 :=
      fun d hd => Nat.digits_lt_base (by norm_num) hd
    have hdig : ∀ c ∈ (Nat.digits 10 n).reverse.map digitChar, c.isDigit = true := by
      intro c hc
      obtain ⟨d, hd, hcd⟩ := List.mem_map.mp hc
      rw [← hcd]
      exact isDigit_digitChar (hlt d (List.mem_reverse.mp hd))
    have hne : (Nat.digits 10 n).reverse.map digitChar ≠ [] := by
      simp [Nat.digits_ne_nil_iff_ne_zero.mpr h0]
    unfold decodeNat?
    rw [if_pos ⟨hne, List.all_eq_true.mpr (fun c hc => hdig c hc)⟩]
    unfold digitListVal
    rw [digitListVal_digits (Nat.digits 10 n) hlt 0, Nat.ofDigits_digits]
    simp

theorem encodeNat_digit {n : Nat} : ∀ c ∈ encodeNat n, c.isDigit = true := by
  intro c hc
  unfold encodeNat at hc
  by_cases h0 : n = 0
  · rw [if_pos h0] at hc
    simp at hc
    subst hc
    decide
  · rw [if_neg h0] at hc
    obtain ⟨d, hd, hcd⟩ := List.mem_map.mp hc
    rw [← hcd]
    exact isDigit_digitChar (Nat.digits_lt_base (by norm_num) (List.mem_reverse.mp hd))

theorem encodeNat_ne_nil (n : Nat) : encodeNat n ≠ [] := by
  unfold encodeNat
  by_cases h0 : n = 0
  · rw [if_pos h0]
    decide
  · rw [if_neg h0]
    simp [Nat.digits_ne_nil_iff_ne_zero.mpr h0]

theorem isDigit_ne_quote {c : Char} (h : c.isDigit = true) : c ≠ '"' := by
  intro hc
  subst hc
  exact absurd h (by decide)

/-- The shapes the input may take right after a written field: nothing, a
separator, or a line break. -/
def FieldEnd (rest : List Char) : Prop :=
  rest = [] ∨ ∃ c rest2, rest = c :: rest2 ∧ (c = ',' ∨ c = '\n')

theorem fieldEnd_comma (x : List Char) : FieldEnd (',' :: x) :=
  Or.inr ⟨',', x, rfl, Or.inl rfl⟩

theorem fieldEnd_newline (x : List Char) : FieldEnd ('\n' :: x) :=
  Or.inr ⟨'\n', x, rfl, Or.inr rfl⟩

theorem parseBare_append (cs rest : List Char)
    (h : ∀ c ∈ cs, ¬(c = ',' ∨ c = '\n')) (hrest : FieldEnd rest) :
    parseBare (cs ++ rest) = (cs, rest) := by
  induction cs with
  | nil =>
    rw [List.nil_append]
    rcases hrest with rfl | ⟨c, rest2, rfl, hc⟩
    · rfl
    · unfold parseBare
      rw [if_pos hc]
  | cons a cs2 ih =>
    have ha := h a (List.mem_cons_self a cs2)
    rw [List.cons_append]
    unfold parseBare
    rw [if_neg ha]
    rw [ih (fun c hc => h c (List.mem_cons_of_mem _ hc))]

theorem parseQuoted_escape (cs rest : List Char) (hrest : FieldEnd rest) :
    parseQuoted ((cs.map fun c => if c = '"' then ['"', '"'] else [c]).flatten ++ '"' :: rest)
      = some (cs, rest) := by
  induction cs with
  | nil =>
    rw [List.map_nil, List.flatten_nil, List.nil_append]
    unfold parseQuoted
    rw [if_pos rfl]
    rcases hrest with rfl | ⟨c, rest2, rfl, hc⟩
    · rfl
    · have hcq : c ≠ '"' := by rcases hc with rfl | rfl <;> decide
      show (if c = '"' then (parseQuoted rest2).map fun p => ('"' :: p.1, p.2)
        else some ([], c :: rest2)) = some ([], c :: rest2)
      rw [if_neg hcq]
  | cons a cs2 ih =>
    rw [List.map_cons, List.flatten_cons]
    by_cases ha : a = '"'
    · subst ha
      rw [if_pos rfl]
      show (parseQuoted ((cs2.map fun c => if c = '"' then ['"', '"'] else [c]).flatten
        ++ '"' :: rest)).map (fun p => ('"' :: p.1, p.2)) = some ('"' :: cs2, rest)
      rw [ih]
      rfl
    · rw [if_neg ha]
      show parseQuoted (a :: ((cs2.map fun c => if c = '"' then ['"', '"'] else [c]).flatten
        ++ '"' :: rest)) = some (a :: cs2, rest)
      unfold parseQuoted
      rw [if_neg ha, ih]
      rfl

theorem parseField_bare (cs rest : List Char)
    (h : ∀ c ∈ cs, ¬(c = ',' ∨ c = '\n'))
    (hq : ∀ c ∈ cs, c ≠ '"')
    (hrest : FieldEnd rest) :
    parseField (cs ++ rest) = some (cs, rest) := by
  cases cs with
  | nil =>
    rw [List.nil_append]
    rcases hrest with rfl | ⟨c, rest2, rfl, hc⟩
    · rfl
    · have hcq : c ≠ '"' := by rcases hc with rfl | rfl <;> decide
      show (if c = '"' then parseQuoted rest2 else some (parseBare (c :: rest2)))
        = some ([], c :: rest2)
      rw [if_neg hcq]
      have hb : parseBare (c :: rest2) = ([], c :: rest2) := by
        unfold parseBare
        rw [if_pos hc]
      rw [hb]
  | cons a cs2 =>
    have haq : a ≠ '"' := hq a (List.mem_cons_self a cs2)
    rw [List.cons_append]
    show (if a = '"' then parseQuoted (cs2 ++ rest)
      else some (parseBare (a :: (cs2 ++ rest)))) = some (a :: cs2, rest)
    rw [if_neg haq]
    rw [show a :: (cs2 ++ rest) = (a :: cs2) ++ rest from rfl]
    rw [parseBare_append (a :: cs2) rest h hrest]

theorem parseField_encodeField (s : String) (rest : List Char) (hrest : FieldEnd rest) :
    parseField (encodeField s.data ++ rest) = some (s.data, rest) := by
  unfold encodeField
  by_cases hq : (s.data.contains ',' || s.data.contains '"'
      || s.data.contains '\n' || s.data.contains '\r') = true
  · rw [if_pos hq]
    have hsh : ('"' :: (s.data.map fun c => if c = '"' then ['"', '"'] else [c]).flatten
          ++ ['"']) ++ rest
        = '"' :: ((s.data.map fun c => if c = '"' then ['"', '"'] else [c]).flatten
          ++ '"' :: rest) := by
      simp [List.append_assoc]
    rw [hsh]
    show parseQuoted ((s.data.map fun c => if c = '"' then ['"', '"'] else [c]).flatten
      ++ '"' :: rest) = some (s.data, rest)
    exact parseQuoted_escape s.data rest hrest
  · rw [if_neg hq]
    simp only [Bool.or_eq_true, not_or] at hq
    obtain ⟨⟨⟨hq1, hq2⟩, hq3⟩, -⟩ := hq
    have h1 : ∀ c ∈ s.data, ¬(c = ',' ∨ c = '\n') := by
      intro c hc hor
      rcases hor with rfl | rfl
      · exact hq1 (List.elem_iff.mpr hc)
      · exact hq3 (List.elem_iff.mpr hc)
    have h2 : ∀ c ∈ s.data, c ≠ '"' := by
      intro c hc hcon
      subst hcon
      exact hq2 (List.elem_iff.mpr hc)
    exact parseField_bare s.data rest h1 h2 hrest

theorem parseField_encodeNat (n : Nat) (rest : List Char) (hrest : FieldEnd rest) :
    parseField (encodeNat n ++ rest) = some (encodeNat n, rest) := by
  apply parseField_bare
  · intro c hc hor
    have hd := encodeNat_digit c hc
    rcases hor with rfl | rfl
    · exact isDigit_ne_comma hd rfl
    · exact isDigit_ne_newline hd rfl
  · intro c hc
    exact isDigit_ne_quote (encodeNat_digit c hc)
  · exact hrest

theorem parseFieldsAfter_zero (tail : List Char) :
    parseFieldsAfter 0 ('\n' :: tail) = some ([], tail) := by
  unfold parseFieldsAfter
  rw [if_pos rfl]

theorem parseFieldsAfter_step {n : Nat} {cs f r : List Char}
    {out : List (List Char) × List Char}
    (h1 : parseField cs = some (f, r)) (h2 : parseFieldsAfter n r = some out) :
    parseFieldsAfter (n + 1) (',' :: cs) = some (f :: out.1, out.2) := by
  unfold parseFieldsAfter
  rw [if_pos rfl, h1]
  show (parseFieldsAfter n r).map (fun q => (f :: q.1, q.2)) = _
  rw [h2]
  rfl

theorem parseRecord7_eq {cs f r : List Char} {out : List (List Char) × List Char}
    (h1 : parseField cs = some (f, r)) (h2 : parseFieldsAfter 6 r = some out) :
    parseRecord7 cs = some (f :: out.1, out.2) := by
  unfold parseRecord7
  rw [h1]
  show (parseFieldsAfter 6 r).map (fun q => (f :: q.1, q.2)) = _
  rw [h2]
  rfl

theorem parseRecord7_encodeRow (r : CrzMonthlyRow) (tail : List Char) :
    parseRecord7 (encodeRow r ++ '\n' :: tail) = some (rowFields r, tail) := by
  have hnorm : encodeRow r ++ '\n' :: tail
      = encodeNat r.year ++ ',' :: (encodeNat r.monthNum ++ ',' :: (encodeField r.month.data
        ++ ',' :: (encodeField r.region.data ++ ',' :: (encodeField r.vehicleClass.data
        ++ ',' :: (encodeField r.detGroup.data ++ ',' :: (encodeNat r.entries
        ++ '\n' :: tail)))))) := by
    unfold encodeRow
    simp [List.append_assoc]
  rw [hnorm]
  exact parseRecord7_eq (parseField_encodeNat _ _ (fieldEnd_comma _))
    (parseFieldsAfter_step (parseField_encodeNat _ _ (fieldEnd_comma _))
      (parseFieldsAfter_step (parseField_encodeField _ _ (fieldEnd_comma _))
        (parseFieldsAfter_step (parseField_encodeField _ _ (fieldEnd_comma _))
          (parseFieldsAfter_step (parseField_encodeField _ _ (fieldEnd_comma _))
            (parseFieldsAfter_step (parseField_encodeField _ _ (fieldEnd_comma _))
              (parseFieldsAfter_step (parseField_encodeNat _ _ (fieldEnd_newline _))
                (parseFieldsAfter_zero tail)))))))

theorem parseRecord7_header (tail : List Char) :
    parseRecord7 (csvHeader ++ '\n' :: tail) = some (csvHeaderFields, tail) := by
  have h0 : csvHeader = "Year".data ++ ',' :: ("MonthNum".data ++ ',' :: ("Month".data
      ++ ',' :: ("Detection Region".data ++ ',' :: ("Vehicle Class".data
      ++ ',' :: ("Detection Group".data ++ ',' :: "CRZ Entries".data))))) := by decide
  rw [h0]
  simp only [List.append_assoc, List.cons_append]
  exact parseRecord7_eq (parseField_bare "Year".data _ (by decide) (by decide) (fieldEnd_comma _))
    (parseFieldsAfter_step (parseField_bare "MonthNum".data _ (by decide) (by decide) (fieldEnd_comma _))
      (parseFieldsAfter_step (parseField_bare "Month".data _ (by decide) (by decide) (fieldEnd_comma _))
        (parseFieldsAfter_step (parseField_bare "Detection Region".data _ (by decide) (by decide) (fieldEnd_comma _))
          (parseFieldsAfter_step (parseField_bare "Vehicle Class".data _ (by decide) (by decide) (fieldEnd_comma _))
            (parseFieldsAfter_step (parseField_bare "Detection Group".data _ (by decide) (by decide) (fieldEnd_comma _))
              (parseFieldsAfter_step (parseField_bare "CRZ Entries".data _ (by decide) (by decide) (fieldEnd_newline _))
                (parseFieldsAfter_zero tail)))))))

theorem parseRecordsGo_rowsBytes (t : List CrzMonthlyRow) :
    ∀ fuel : Nat, (rowsBytes t).length < fuel →
      parseRecordsGo fuel (rowsBytes t) = some (t.map rowFields) := by
  induction t with
  | nil =>
    intro fuel hf
    cases fuel with
    | zero => simp [parseRecordsGo, rowsBytes]
    | succ f => simp [parseRecordsGo, rowsBytes]
  | cons r rs ih =>
    intro fuel hf
    have hbytes : rowsBytes (r :: rs) = encodeRow r ++ '\n' :: rowsBytes rs := by
      unfold rowsBytes
      simp [List.append_assoc]
    rw [hbytes] at hf ⊢
    cases fuel with
    | zero => exact absurd hf (Nat.not_lt_zero _)
    | succ f =>
      have hne : encodeRow r ++ '\n' :: rowsBytes rs ≠ [] := by simp
      unfold parseRecordsGo
      rw [if_neg hne]
      rw [parseRecord7_encodeRow r (rowsBytes rs)]
      show (parseRecordsGo f (rowsBytes rs)).map (fun recs => rowFields r :: recs) = _
      have hlt : (rowsBytes rs).length < f := by
        simp [List.length_append] at hf
        omega
      rw [ih f hlt]
      rfl

theorem decodeFields?_rowFields (r : CrzMonthlyRow) :
    decodeFields? (rowFields r) = some r := by
  unfold decodeFields? rowFields
  simp [decodeNat?_encodeNat]

theorem decodeRows?_rowFields (t : List CrzMonthlyRow) :
    decodeRows? (t.map rowFields) = some t := by
  induction t with
  | nil => rfl
  | cons r rs ih =>
    rw [List.map_cons]
    unfold decodeRows?
    rw [decodeFields?_rowFields r, ih]

theorem readCsv?_writeCsv (t : List CrzMonthlyRow) : readCsv? (writeCsv t) = some t := by
  have hrec : parseRecordsGo ((csvHeader ++ '\n' :: rowsBytes t).length + 1)
      (csvHeader ++ '\n' :: rowsBytes t) = some (csvHeaderFields :: t.map rowFields) := by
    unfold parseRecordsGo
    rw [if_neg (by simp)]
    rw [parseRecord7_header (rowsBytes t)]
    show (parseRecordsGo (csvHeader ++ '\n' :: rowsBytes t).length (rowsBytes t)).map
      (fun recs => csvHeaderFields :: recs) = _
    have hlt : (rowsBytes t).length < (csvHeader ++ '\n' :: rowsBytes t).length := by
      simp [List.length_append]
      omega
    rw [parseRecordsGo_rowsBytes t _ hlt]
    rfl
  unfold readCsv? writeCsv
  rw [hrec]
  show (if csvHeaderFields = csvHeaderFields then decodeRows? (t.map rowFields) else none)
    = some t
  rw [if_pos rfl]
  exact decodeRows?_rowFields t

/-- C7: writing the monthly aggregate with `to_csv` and reading it back
with `read_csv` yields the identical table for every table — fields
containing separators, quotes or line breaks travel through the minimal
quoting of the writer and the quote-aware reader — hence the identical
mapping from the grouping key (region, vehicle class, detection group,
year, month) to the summed count. -/
theorem crz_cache_round_trip (t : List CrzMonthlyRow) :
    readCsv? (writeCsv t) = some t ∧
    ∀ t2, readCsv? (writeCsv t) = some t2 → crzMonthlyTotal t2 = crzMonthlyTotal t := by
  have h1 := readCsv?_writeCsv t
  refine ⟨h1, fun t2 h2 => ?_⟩
  rw [h1] at h2
  cases h2
  rfl

/-- A concrete cache table whose vehicle-class labels need CSV quoting. -/
def crzCacheTable : List CrzMonthlyRow :=
  [⟨2025, 1, "January", "Brooklyn", "1 - Cars, Pickups and Vans", "Brooklyn Bridge", 120⟩,
   ⟨2025, 2, "February", "Queens", "4 - Buses \"Commuter\"", "Queensboro Bridge", 45⟩]

/-- Witness for C7 at a concrete table with a comma-containing and a
quote-containing field. -/
theorem crz_cache_round_trip_witness :
    readCsv? (writeCsv crzCacheTable) = some crzCacheTable :=
  (crz_cache_round_trip crzCacheTable).1

/-! ## Filtering by empty selections (app.py lines 347-371 and
app_crz.py lines 303-315) -/

/-- One row of the CRZ vehicle-entries table after preprocessing (calendar
dates abstracted to a day index; `CRZ Entries` is an integer count). -/
structure CrzRow where
  vehicleClass : String
  region : String
  detGroup : String
  tollDate : Nat
  entries : ℤ
deriving DecidableEq

/-- The shared filter expression (app.py lines 360-366, identical in
app_crz.py lines 309-315): conjunction of the three `isin` tests and the
date-range bounds. -/
def appFilterRows (df : List CrzRow) (vehicles regions groups : List String)
    (s e : Nat) : List CrzRow :=
  df.filter fun r => r.vehicleClass ∈ vehicles ∧ r.region ∈ regions
    ∧ r.detGroup ∈ groups ∧ s ≤ r.tollDate ∧ r.tollDate ≤ e

/-- The time-series tab of `update_existing_tabs` (app.py lines 368-371):
group the filtered rows by day and sum the entries (group-key order
abstracted to first occurrence). -/
def tabTsSeries (df : List CrzRow) (vehicles regions groups : List String)
    (s e : Nat) : List (Nat × ℤ) :=
  let filtered := appFilterRows df vehicles regions groups s e
  (filtered.map CrzRow.tollDate).dedup.map fun d =>
    (d, ((filtered.filter fun r => r.tollDate = d).map CrzRow.entries).sum)

/-- `sorted(df[col].unique())`. -/
def sortedUnique (l : List String) : List String :=
  (l.dedup).insertionSort (fun a b => a ≤ b)

def vehicleClasses (df : List CrzRow) : List String :=
  sortedUnique (df.map CrzRow.vehicleClass)

def crzRegions (df : List CrzRow) : List String :=
  sortedUnique (df.map CrzRow.region)

def crzDetGroups (df : List CrzRow) : List String :=
  sortedUnique (df.map CrzRow.detGroup)

/-- `render_content` of app_crz.py (lines 303-315): empty selections are
first replaced by the full option lists (`vehicles or
list(vehicle_classes)` and so on), and only then is the shared filter
applied. -/
def renderContentFilter (df : List CrzRow) (vehicles regions groups : List String)
    (s e : Nat) : List CrzRow :=
  let vehicles := if vehicles = [] then vehicleClasses df else vehicles
  let regions := if regions = [] then crzRegions df else regions
  let groups := if groups = [] then crzDetGroups df else groups
  appFilterRows df vehicles regions groups s e

/-- A one-row CRZ table. -/
def crzOneRow : CrzRow := ⟨"Cars", "Brooklyn", "Brooklyn Bridge", 5, 10⟩

/-- C8 counterexample: in the Dropbox variant (`render_content` of
app_crz.py) an all-empty selection does not produce an empty result — the
empty lists are defaulted to all options and the full (date-filtered)
table comes back. -/
theorem crz_empty_filter_counterexample :
    renderContentFilter [crzOneRow] [] [] [] 0 9 = [crzOneRow] ∧
    [crzOneRow] ≠ ([] : List CrzRow) :=
  ⟨rfl, by decide⟩

/-- C8 amended: in app.py's `update_existing_tabs` an empty selection list
makes the filter — and the chart series computed from it — come back
empty, with no exception (the functions are total and the zero-row list is
returned as a valid state); in app_crz.py's `render_content` empty
selections are instead defaulted to the full option lists before the same
filter runs. -/
theorem empty_filter_amended :
    (∀ (df : List CrzRow) (regions groups : List String) (s e : Nat),
      appFilterRows df [] regions groups s e = []) ∧
    (∀ (df : List CrzRow) (vehicles groups : List String) (s e : Nat),
      appFilterRows df vehicles [] groups s e = []) ∧
    (∀ (df : List CrzRow) (vehicles regions : List String) (s e : Nat),
      appFilterRows df vehicles regions [] s e = []) ∧
    (∀ (df : List CrzRow) (regions groups : List String) (s e : Nat),
      tabTsSeries df [] regions groups s e = []) ∧
    (∀ (df : List CrzRow) (s e : Nat),
      renderContentFilter df [] [] [] s e
        = appFilterRows df (vehicleClasses df) (crzRegions df) (crzDetGroups df) s e) := by
  have hv : ∀ (df : List CrzRow) (regions groups : List String) (s e : Nat),
      appFilterRows df [] regions groups s e = [] := by
    intro df regions groups s e
    simp [appFilterRows]
  refine ⟨hv, ?_, ?_, ?_, ?_⟩
  · intro df vehicles groups s e
    simp [appFilterRows]
  · intro df vehicles regions s e
    simp [appFilterRows]
  · intro df regions groups s e
    unfold tabTsSeries
    rw [hv df regions groups s e]
    rfl
  · intro df s e
    rfl

/-! ## The random Detection Group overwrite of the Dropbox CRZ variant
(app_crz.py lines 121-145) -/

/-- The static `region_group_mapping` dictionary of app_crz.py
lines 121-129. -/
def region_group_mapping : List (String × List String) :=
  [("Brooklyn", ["Brooklyn Bridge", "Hugh L. Carey Tunnel", "Manhattan Bridge",
     "Williamsburg Bridge"]),
   ("East 60th St", ["East 60th St"]),
   ("FDR Drive", ["FDR Drive at 60th St"]),
   ("New Jersey", ["Holland Tunnel", "Lincoln Tunnel"]),
   ("Queens", ["Queens Midtown Tunnel", "Queensboro Bridge"]),
   ("West 60th St", ["West 60th St"]),
   ("West Side Highway", ["West Side Highway at 60th St"])]

/-- `region_group_mapping[region]`: dictionary lookup, absent keys mean
`KeyError`. -/
def mappingGroups? (region : String) : Option (List String) :=
  (region_group_mapping.find? fun p => p.1 == region).map Prod.snd

/-- `assign_detection_group` (app_crz.py lines 140-143): look the row's
region up — a `KeyError` escapes if it is not a key — then draw one
element of the group list with `np.random.choice`; the draw for row `i`
comes from the random source `pick`. -/
def assign_detection_group (pick : Nat → Nat) (i : Nat) (r : CrzRow) :
    Except String String :=
  match mappingGroups? r.region with
  | none => .error "KeyError"
  | some [] => .error "ValueError"
  | some (g :: gs) => .ok ((g :: gs).getD (pick i % (g :: gs).length) g)

/-- `df["Detection Group"] = df.apply(assign_detection_group, axis=1)`
(app_crz.py line 145): row-wise overwrite of the column, aborting the load
with the row's exception if any row raises. -/
def applyAssign (pick : Nat → Nat) : Nat → List CrzRow → Except String (List CrzRow)
  | _, [] => .ok []
  | i, r :: rs =>
    match assign_detection_group pick i r with
    | .error err => .error err
    | .ok g =>
      match applyAssign pick (i + 1) rs with
      | .error err => .error err
      | .ok rest => .ok ({ r with detGroup := g } :: rest)

/-- A row with every column except `Detection Group` blanked, used to say
two tables agree everywhere except in that column. -/
def eraseGroup (r : CrzRow) : CrzRow := { r with detGroup := "" }

instance {ε α : Type} [DecidableEq ε] [DecidableEq α] : DecidableEq (Except ε α) := fun x y =>
  match x, y with
  | .ok a, .ok b =>
    if h : a = b then .isTrue (by rw [h]) else .isFalse (fun hc => h (Except.ok.inj hc))
  | .error a, .error b =>
    if h : a = b then .isTrue (by rw [h]) else .isFalse (fun hc => h (Except.error.inj hc))
  | .ok a, .error b => .isFalse (fun hc => Except.noConfusion hc)
  | .error a, .ok b => .isFalse (fun hc => Except.noConfusion hc)

theorem mappingGroups?_ne_nil {region : String} {gs : List String}
    (h : mappingGroups? region = some gs) : gs ≠ [] := by
  have hwf : ∀ p ∈ region_group_mapping, p.2 ≠ [] := by decide
  unfold mappingGroups? at h
  cases hf : region_group_mapping.find? fun p => p.1 == region with
  | none => rw [hf] at h; cases h
  | some p =>
    rw [hf] at h
    simp only [Option.map_some'] at h
    rw [← Option.some.inj h]
    exact hwf p (List.mem_of_find?_eq_some hf)

theorem assign_ok_mem {pick : Nat → Nat} {i : Nat} {r : CrzRow} {g : String}
    (h : assign_detection_group pick i r = .ok g) :
    ∃ gs, mappingGroups? r.region = some gs ∧ g ∈ gs := by
  unfold assign_detection_group at h
  cases hm : mappingGroups? r.region with
  | none => rw [hm] at h; cases h
  | some gs =>
    rw [hm] at h
    cases gs with
    | nil => cases h
    | cons g0 gt =>
      refine ⟨g0 :: gt, rfl, ?_⟩
      cases h
      have hlt : pick i % (g0 :: gt).length < (g0 :: gt).length :=
        Nat.mod_lt _ (by simp)
      rw [List.getD_eq_getElem _ _ hlt]
      exact List.getElem_mem hlt

theorem assign_isSome {pick : Nat → Nat} {i : Nat} {r : CrzRow}
    (h : (mappingGroups? r.region).isSome = true) :
    ∃ g, assign_detection_group pick i r = .ok g := by
  unfold assign_detection_group
  cases hm : mappingGroups? r.region with
  | none => rw [hm] at h; cases h
  | some gs =>
    cases gs with
    | nil => exact absurd rfl (mappingGroups?_ne_nil hm)
    | cons g0 gt => exact ⟨_, rfl⟩

/-- C10: the Dropbox CRZ variant overwrites every row's Detection Group:
the load succeeds exactly when every row's Detection Region is a key of
`region_group_mapping`; on success each output row's group is drawn from
`region_group_mapping` at that row's region; the value read from the
source is discarded (two inputs differing only in that column load
identically); distinct draws can produce distinct outputs on the same
input (the load is not deterministic); and a row whose region is the
`Unknown` fill value makes the load raise `KeyError`. -/
theorem crz_detection_group_randomization :
    (∀ (pick : Nat → Nat) (i : Nat) (df : List CrzRow),
      (∃ out, applyAssign pick i df = .ok out)
        ↔ ∀ r ∈ df, (mappingGroups? r.region).isSome = true) ∧
    (∀ (pick : Nat → Nat) (i : Nat) (df : List CrzRow) (out : List CrzRow),
      applyAssign pick i df = .ok out →
      out.length = df.length ∧
      ∀ j (hj : j < df.length) (hj' : j < out.length),
        ∃ gs, mappingGroups? ((df.get ⟨j, hj⟩).region) = some gs
          ∧ (out.get ⟨j, hj'⟩).detGroup ∈ gs
          ∧ out.get ⟨j, hj'⟩ = { df.get ⟨j, hj⟩ with
              detGroup := (out.get ⟨j, hj'⟩).detGroup }) ∧
    (∀ (pick : Nat → Nat) (i : Nat) (df df' : List CrzRow),
      df.map eraseGroup = df'.map eraseGroup →
      applyAssign pick i df = applyAssign pick i df') ∧
    (applyAssign (fun _ => 0) 0 [crzOneRow] ≠ applyAssign (fun _ => 1) 0 [crzOneRow]) ∧
    (∀ (pick : Nat → Nat) (i : Nat),
      applyAssign pick i [⟨"Cars", "Unknown", "Brooklyn Bridge", 5, 10⟩]
        = .error "KeyError") := by
  refine ⟨?_, ?_, ?_, by decide, fun pick i => rfl⟩
  · intro pick i df
    induction df generalizing i with
    | nil => exact ⟨fun _ => by simp, fun _ => ⟨[], rfl⟩⟩
    | cons r rs ih =>
      constructor
      · rintro ⟨out, hout⟩
        unfold applyAssign at hout
        cases ha : assign_detection_group pick i r with
        | error err => rw [ha] at hout; cases hout
        | ok g =>
          rw [ha] at hout
          cases hrest : applyAssign pick (i + 1) rs with
          | error err => rw [hrest] at hout; cases hout
          | ok rest =>
            intro x hx
            rcases List.mem_cons.mp hx with hx | hx
            · subst hx
              obtain ⟨gs, hgs, -⟩ := assign_ok_mem ha
              rw [hgs]
              rfl
            · exact ((ih (i + 1)).mp ⟨rest, hrest⟩) x hx
      · intro hall
        obtain ⟨g, hg⟩ :=
          @assign_isSome pick i r (hall r (List.mem_cons_self r rs))
        obtain ⟨rest, hrest⟩ :=
          (ih (i + 1)).mpr fun x hx => hall x (List.mem_cons_of_mem _ hx)
        refine ⟨{ r with detGroup := g } :: rest, ?_⟩
        unfold applyAssign
        rw [hg, hrest]
  · intro pick i df
    induction df generalizing i with
    | nil =>
      intro out hout
      cases hout
      exact ⟨rfl, fun j hj => by simp at hj⟩
    | cons r rs ih =>
      intro out hout
      unfold applyAssign at hout
      cases ha : assign_detection_group pick i r with
      | error err => rw [ha] at hout; cases hout
      | ok g =>
        rw [ha] at hout
        cases hrest : applyAssign pick (i + 1) rs with
        | error err => rw [hrest] at hout; cases hout
        | ok rest =>
          rw [hrest] at hout
          cases hout
          obtain ⟨hlen, hmem⟩ := ih (i + 1) rest hrest
          refine ⟨by simpa using hlen, ?_⟩
          intro j hj hj'
          cases j with
          | zero =>
            obtain ⟨gs, hgs, hgmem⟩ := assign_ok_mem ha
            exact ⟨gs, hgs, hgmem, rfl⟩
          | succ k =>
            exact hmem k (by simpa using hj) (by simpa using hj')
  · intro pick i df df' hsame
    induction df generalizing i df' with
    | nil =>
      cases df' with
      | nil => rfl
      | cons r' rs' => simp at hsame
    | cons r rs ih =>
      cases df' with
      | nil => simp at hsame
      | cons r' rs' =>
        simp only [List.map_cons, List.cons.injEq] at hsame
        obtain ⟨hhead, htail⟩ := hsame
        have hfields : r.vehicleClass = r'.vehicleClass ∧ r.region = r'.region
            ∧ r.tollDate = r'.tollDate ∧ r.entries = r'.entries := by
          unfold eraseGroup at hhead
          cases r
          cases r'
          simp_all
        unfold applyAssign
        rw [show assign_detection_group pick i r = assign_detection_group pick i r' from by
          unfold assign_detection_group
          rw [hfields.2.1]]
        rw [ih (i + 1) rs' htail]
        cases applyAssign pick (i + 1) rs' with
        | error err => cases assign_detection_group pick i r' <;> rfl
        | ok rest =>
          cases assign_detection_group pick i r' with
          | error err => rfl
          | ok g =>
            obtain ⟨h1, h2, h3, h4⟩ := hfields
            cases r
            cases r'
            simp_all

/-- Witness for C10 at a concrete one-row table and a fixed draw. -/
theorem crz_detection_group_randomization_witness :
    applyAssign (fun _ => 0) 0 [crzOneRow]
      = .ok [{ crzOneRow with detGroup := "Brooklyn Bridge" }] ∧
    (∃ gs, mappingGroups? crzOneRow.region = some gs ∧ "Brooklyn Bridge" ∈ gs) ∧
    (∀ r ∈ [crzOneRow], (mappingGroups? r.region).isSome = true) := by
  have h1 : applyAssign (fun _ => 0) 0 [crzOneRow]
      = .ok [{ crzOneRow with detGroup := "Brooklyn Bridge" }] := rfl
  refine ⟨h1, ?_, ?_⟩
  · obtain ⟨-, hmem⟩ :=
      crz_detection_group_randomization.2.1 (fun _ => 0) 0 [crzOneRow] _ h1
    obtain ⟨gs, hgs, hg, -⟩ := hmem 0 (by decide) (by decide)
    exact ⟨gs, hgs, hg⟩
  · exact (crz_detection_group_randomization.1 (fun _ => 0) 0 [crzOneRow]).mp ⟨_, h1⟩

end Dashboard
